import Mathlib

/-!
# EldenOps attendance engine — shallow embedding

This file embeds the classification-and-projection engine of the EldenOps
repository: the rule-based Pattern Matcher (translated from the regex rules in
`docs/ATTENDANCE_SYSTEM_DESIGN.md` §3.3), the AI Classifier adapter, the
Classification Resolver with its confidence gate, the idempotent Event Store,
the Status Projector state machine, the Pattern Analyzer / Anomaly Detector,
the Correction Handler, and the team-status aggregation consumed by the
dashboard (`dashboard/src/lib/api.ts`).  Event times are modelled as minutes
(natural numbers); confidences as rationals in `[0,1]`.
-/

namespace EldenOps

/-- Event kinds, from the design document's event table and the spec data
model: `CHECKIN, CHECKOUT, BREAK_START, BREAK_END`. -/
inductive EventKind
  | CHECKIN
  | CHECKOUT
  | BREAK_START
  | BREAK_END
deriving DecidableEq

/-- Derived user status, from the design document and
`UserAttendanceStatus.status` in `dashboard/src/lib/api.ts` (exactly four
values: active, on_break, offline, unknown). -/
inductive Status
  | ACTIVE
  | ON_BREAK
  | OFFLINE
  | UNKNOWN
deriving DecidableEq

/-- Classification source (`parsed_by` in the `attendance_logs` schema;
the spec data model calls the values rule, ai, manual). -/
inductive ClassSource
  | rule
  | ai
  | manual
deriving DecidableEq

/-- Idempotence key of an event: `(tenant, channel, message_id)` — the spec
data model says the source message id is unique per tenant+channel. -/
structure MsgKey where
  tenant : Nat
  channel : Nat
  message : Nat
deriving DecidableEq

/-- An attendance event, following the `attendance_logs` schema of the design
document and the spec data model.  `time` is the event time (message
timestamp) in minutes; `actual_duration_minutes` is filled in when a break is
closed. -/
structure AttendanceEvent where
  id : Nat
  user : Option Nat
  kind : EventKind
  time : Nat
  expected_return : Option Nat
  reason : Option String
  confidence : ℚ
  source : ClassSource
  actual_duration_minutes : Option Int
  raw_message : String
deriving DecidableEq

/-! ## Pattern Matcher

Translated from the `PATTERNS` table and `parse_brb_reason` in
`docs/ATTENDANCE_SYSTEM_DESIGN.md` §3.3.  The regexes are prefix matchers
(`re.match`), case-insensitive; they are compiled here into character-list
functions.  `(?i)` is modelled by ASCII lowercasing of code points. -/

/-- ASCII-lowercased code point of a character (models the `(?i)` flag). -/
def lcn (c : Char) : Nat :=
  if 65 ≤ c.toNat ∧ c.toNat ≤ 90 then c.toNat + 32 else c.toNat

/-- Whitespace test, the `\s` class. -/
def isWS (c : Char) : Bool :=
  c.toNat = 32 || c.toNat = 9 || c.toNat = 10 || c.toNat = 13 ||
  c.toNat = 11 || c.toNat = 12

/-- Word-character test, the `\w` class (for `\b` boundaries). -/
def isWordChar (c : Char) : Bool :=
  (48 ≤ c.toNat && c.toNat ≤ 57) || (65 ≤ c.toNat && c.toNat ≤ 90) ||
  (97 ≤ c.toNat && c.toNat ≤ 122) || c.toNat = 95

/-- `\s*`: drop a maximal whitespace prefix. -/
def dropWS (cs : List Char) : List Char := cs.dropWhile isWS

/-- Case-insensitive literal prefix: consume `pat` from the front of the
input, returning the rest, or `none` on mismatch. -/
def stripLit : List Char → List Char → Option (List Char)
  | [], cs => some cs
  | _ :: _, [] => none
  | p :: ps, c :: cs => if lcn c = lcn p then stripLit ps cs else none

/-- `\b` after a literal: end of input or a non-word character. -/
def wordBoundary (cs : List Char) : Bool :=
  match cs with
  | [] => true
  | c :: _ => !isWordChar c

/-- Strip trailing whitespace. -/
def stripEnd (cs : List Char) : List Char := (cs.reverse.dropWhile isWS).reverse

/-- Python `str.strip()` on a character list. -/
def stripBoth (cs : List Char) : List Char := stripEnd (dropWS cs)

def patAvailable : List Char := ['a', 'v', 'a', 'i', 'l', 'a', 'b', 'l', 'e']
def patGood : List Char := ['g', 'o', 'o', 'd']
def patMorning : List Char := ['m', 'o', 'r', 'n', 'i', 'n', 'g']
def patGm : List Char := ['g', 'm']
def patOnline : List Char := ['o', 'n', 'l', 'i', 'n', 'e']
def patIn : List Char := ['i', 'n']
def patSigning : List Char := ['s', 'i', 'g', 'n', 'i', 'n', 'g']
def patOut : List Char := ['o', 'u', 't']
def patLogging : List Char := ['l', 'o', 'g', 'g', 'i', 'n', 'g']
def patOff : List Char := ['o', 'f', 'f']
def patEod : List Char := ['e', 'o', 'd']
def patDone : List Char := ['d', 'o', 'n', 'e']
def patBrb : List Char := ['b', 'r', 'b']
def patBreak : List Char := ['b', 'r', 'e', 'a', 'k']
def patAfk : List Char := ['a', 'f', 'k']
def patLunch : List Char := ['l', 'u', 'n', 'c', 'h']
def patStepping : List Char := ['s', 't', 'e', 'p', 'p', 'i', 'n', 'g']
def patBack : List Char := ['b', 'a', 'c', 'k']
def patI : List Char := ['i']
def patM : List Char := ['m']
def patHere : List Char := ['h', 'e', 'r', 'e']
def patReturned : List Char := ['r', 'e', 't', 'u', 'r', 'n', 'e', 'd']

/-- Optional leading check-in emoji: the class `[✅☑️]` (U+2705, U+2611,
U+FE0F). -/
def dropCheckinEmoji (cs : List Char) : List Char :=
  match cs with
  | c :: rest =>
      if c.toNat = 0x2705 ∨ c.toNat = 0x2611 ∨ c.toNat = 0xFE0F then rest else cs
  | [] => cs

/-- Optional leading check-out emoji: the class `[👋🖐️]` (U+1F44B, U+1F590,
U+FE0F). -/
def dropCheckoutEmoji (cs : List Char) : List Char :=
  match cs with
  | c :: rest =>
      if c.toNat = 0x1F44B ∨ c.toNat = 0x1F590 ∨ c.toNat = 0xFE0F then rest else cs
  | [] => cs

/-- `CHECKIN` rules: `^[✅☑️]?\s*available` and
`^(good\s*morning|gm|online|in\b)`. -/
def matchCHECKIN (cs : List Char) : Bool :=
  (stripLit patAvailable (dropWS (dropCheckinEmoji cs))).isSome ||
  (match stripLit patGood cs with
   | some r => (stripLit patMorning (dropWS r)).isSome
   | none => false) ||
  (stripLit patGm cs).isSome ||
  (stripLit patOnline cs).isSome ||
  (match stripLit patIn cs with
   | some r => wordBoundary r
   | none => false)

/-- `CHECKOUT` rules: `^[👋🖐️]?\s*signing\s*out` and
`^(logging\s*off|out\b|eod|done)`. -/
def matchCHECKOUT (cs : List Char) : Bool :=
  (match stripLit patSigning (dropWS (dropCheckoutEmoji cs)) with
   | some r => (stripLit patOut (dropWS r)).isSome
   | none => false) ||
  (match stripLit patLogging cs with
   | some r => (stripLit patOff (dropWS r)).isSome
   | none => false) ||
  (match stripLit patOut cs with
   | some r => wordBoundary r
   | none => false) ||
  (stripLit patEod cs).isSome ||
  (stripLit patDone cs).isSome

/-- The first `BREAK_START` rule, `^brb(\s*-\s*(?P<reason>.+))?`.
Returns `none` on no match, `some none` on a match without a captured
reason, `some (some g)` with the raw captured group otherwise.  When the
text after the dash is entirely whitespace, backtracking lets `.+` capture
exactly the final whitespace character. -/
def matchBRB (cs : List Char) : Option (Option (List Char)) :=
  match stripLit patBrb cs with
  | none => none
  | some rest =>
      match dropWS rest with
      | c :: r2 =>
          if c.toNat = 45 then
            if (dropWS r2).isEmpty then
              match r2.reverse with
              | [] => some none
              | x :: _ => some (some [x])
            else some (some (dropWS r2))
          else some none
      | [] => some none

/-- `BREAK_START` rules: the `brb` rule above, then
`^(break|afk|lunch|stepping\s*out)`; first declared rule wins. -/
def matchBREAK_START (cs : List Char) : Option (Option (List Char)) :=
  match matchBRB cs with
  | some r => some r
  | none =>
      if (stripLit patBreak cs).isSome || (stripLit patAfk cs).isSome ||
         (stripLit patLunch cs).isSome ||
         (match stripLit patStepping cs with
          | some r => (stripLit patOut (dropWS r)).isSome
          | none => false)
      then some none else none

/-- `BREAK_END` rules: `^back\s*$` and `^(i'?m\s*back|here|returned)`
(the apostrophe is code point 39). -/
def matchBREAK_END (cs : List Char) : Bool :=
  (match stripLit patBack cs with
   | some r => (dropWS r).isEmpty
   | none => false) ||
  (match stripLit patI cs with
   | some r =>
       let r1 := match r with
         | c :: rest => if c.toNat = 39 then rest else r
         | [] => r
       match stripLit patM r1 with
       | some r2 => (stripLit patBack (dropWS r2)).isSome
       | none => false
   | none => false) ||
  (stripLit patHere cs).isSome ||
  (stripLit patReturned cs).isSome

/-- The ordered rule table: kinds are tried in the declaration order of
`PATTERNS` (CHECKIN, CHECKOUT, BREAK_START, BREAK_END); the first matching
kind wins.  A captured break reason is stripped as in `parse_brb_reason`. -/
def classifyByRules (cs : List Char) : Option (EventKind × Option (List Char)) :=
  if matchCHECKIN cs then some (.CHECKIN, none)
  else if matchCHECKOUT cs then some (.CHECKOUT, none)
  else
    match matchBREAK_START cs with
    | some r => some (.BREAK_START, r.map stripBoth)
    | none => if matchBREAK_END cs then some (.BREAK_END, none) else none

/-- `parse_brb_reason` from the design document: extract the reason from a
`BRB - reason` message, stripped. -/
def parse_brb_reason (cs : List Char) : Option (List Char) :=
  match matchBRB cs with
  | some (some g) => some (stripBoth g)
  | _ => none

/-- A classification candidate, the tagged result consumed by the Resolver:
`kind = none` means NONE (not attendance-related). -/
structure Classification where
  kind : Option EventKind
  confidence : ℚ
  reason : Option String
deriving DecidableEq

/-- Modelled from the spec (§4.1 Pattern Matcher): rule matches are always
fully confident (confidence 1.0); no match yields NONE with confidence 0.
The rule table itself is translated from the design document. -/
def patternClassify (msg : String) : Classification :=
  match classifyByRules msg.data with
  | some (k, r) => ⟨some k, 1, r.map (fun cs => String.mk cs)⟩
  | none => ⟨none, 0, none⟩

/-! ## AI Classifier -/

/-- Outcome of one provider adapter in the per-tenant priority list. -/
inductive ProviderOutcome
  | notConfigured
  | timeout
  | failure
  | unparsable
  | ok (kind : Option EventKind) (confidence : ℚ) (reason : Option String)
deriving DecidableEq

/-- Modelled from the spec (§4.2 AI Classifier, which is not implemented
under `src/`): providers are tried in sequence until one is configured and
reachable; the classifier fails closed — a timeout, error or unparsable
response yields NONE with confidence 0, and so does an exhausted provider
list.  The return type is a plain `Classification`: the classifier never
raises into the Resolver. -/
def classifyAI : List ProviderOutcome → Classification
  | [] => ⟨none, 0, none⟩
  | .notConfigured :: rest => classifyAI rest
  | .timeout :: _ => ⟨none, 0, none⟩
  | .failure :: _ => ⟨none, 0, none⟩
  | .unparsable :: _ => ⟨none, 0, none⟩
  | .ok k c r :: _ => ⟨k, c, r⟩

/-! ## Classification Resolver -/

/-- The finalization decision for one inbound message. -/
inductive Resolution
  | finalized (kind : EventKind) (source : ClassSource) (confidence : ℚ)
      (reason : Option String)
  | dropped
deriving DecidableEq

/-- Resolver outcome together with whether the AI Classifier was invoked. -/
structure ResolveResult where
  outcome : Resolution
  aiInvoked : Bool
deriving DecidableEq

/-- The AI leg of the decision policy: finalize with source=ai only if the
result names an event kind and its confidence clears the threshold; a NONE
kind can never become an `AttendanceEvent` (the data model admits only the
four event kinds), so it is left unclassified. -/
def resolveAI (ai : Classification) (threshold : ℚ) : Resolution :=
  match ai.kind with
  | some k =>
      if threshold ≤ ai.confidence then .finalized k .ai ai.confidence ai.reason
      else .dropped
  | none => .dropped

/-- Modelled from the spec (§4.3 Classification Resolver, not implemented
under `src/`): run the Pattern Matcher; if its confidence is ≥ 1.0 (a rule
matched), finalize immediately with source=rule and never invoke the AI
Classifier.  Otherwise run the AI Classifier and gate on the configured
threshold (`ATTENDANCE_AI_CONFIDENCE_THRESHOLD`, default 0.7).  If neither
path clears the message is dropped, which is not an error. -/
def resolveClassification (pm : Classification) (ai : Classification)
    (threshold : ℚ) : ResolveResult :=
  match pm.kind with
  | some k =>
      if 1 ≤ pm.confidence then ⟨.finalized k .rule pm.confidence pm.reason, false⟩
      else ⟨resolveAI ai threshold, true⟩
  | none => ⟨resolveAI ai threshold, true⟩

/-! ## Event Store -/

/-- One stored record: a finalized event under its idempotence key, with a
superseded flag set by the Correction Handler (superseded originals are kept
for audit but excluded from projection). -/
structure StoreEntry where
  key : MsgKey
  event : AttendanceEvent
  superseded : Bool
deriving DecidableEq

/-- The event in effect for a key, if any (superseded entries excluded). -/
def lookupActive : List StoreEntry → MsgKey → Option AttendanceEvent
  | [], _ => none
  | e :: rest, k =>
      if e.key = k ∧ e.superseded = false then some e.event
      else lookupActive rest k

/-- Mark every entry under a key as superseded (Correction Handler only). -/
def markSuperseded (s : List StoreEntry) (k : MsgKey) : List StoreEntry :=
  s.map (fun e => if e.key = k then { e with superseded := true } else e)

/-- Modelled from the spec (§4.4 Event Store, not implemented under `src/`):
exactly-once effective recording per key — a second finalize call with the
same key is a no-op returning the existing event unchanged, unless it comes
from the Correction Handler, which supersedes the original and appends the
replacement. -/
def finalizeEvent (s : List StoreEntry) (k : MsgKey) (ev : AttendanceEvent)
    (fromCorrection : Bool) : List StoreEntry × AttendanceEvent :=
  match lookupActive s k with
  | some ex =>
      if fromCorrection then (markSuperseded s k ++ [⟨k, ev, false⟩], ev)
      else (s, ex)
  | none => (s ++ [⟨k, ev, false⟩], ev)

/-- Finalize a batch of messages in submission order (key, event, and
whether the call originates from the Correction Handler). -/
def finalizeAll (s : List StoreEntry)
    (msgs : List (MsgKey × AttendanceEvent × Bool)) : List StoreEntry :=
  msgs.foldl (fun st o => (finalizeEvent st o.1 o.2.1 o.2.2).1) s

/-- Number of non-superseded events stored under a key. -/
def countActive (s : List StoreEntry) (k : MsgKey) : Nat :=
  (s.filter (fun e => decide (e.key = k ∧ e.superseded = false))).length

/-- The events visible to projection: non-superseded entries, in store
order. -/
def activeEvents (s : List StoreEntry) : List AttendanceEvent :=
  (s.filter (fun e => decide (e.superseded = false))).map StoreEntry.event

/-! ## Status Projector -/

/-- The projector's per-user state, following the `user_attendance_status`
schema: current status, last-event timestamps, current break context, and the
"today" rollup.  `closed_breaks` records, per closed break, the originating
BREAK_START time and the `actual_duration_minutes` written back to that
originating event; `log` is the audit record of every processed event
(out-of-state events included). -/
structure DayState where
  status : Status
  last_checkin_at : Option Nat
  last_checkout_at : Option Nat
  last_break_start_at : Option Nat
  current_break_reason : Option String
  expected_return_at : Option Nat
  today_checkin_at : Option Nat
  today_break_count : Nat
  today_total_break_minutes : Int
  closed_breaks : List (Nat × Int)
  log : List AttendanceEvent
deriving DecidableEq

/-- The initial state before any event has ever been observed: UNKNOWN. -/
def initialUserState : DayState :=
  ⟨.UNKNOWN, none, none, none, none, none, none, 0, 0, [], []⟩

/-- Re-projection (triggered by a correction) replays the day from
OFFLINE. -/
def replayStart : DayState := { initialUserState with status := .OFFLINE }

/-- Modelled from the spec (§4.5 Status Projector, not implemented under
`src/`): one transition of the per-user state machine.  CHECKIN from any
state moves to ACTIVE and records `today_checkin_at` if not already set;
BREAK_START from ACTIVE moves to ON_BREAK recording reason and expected
return; BREAK_END from ON_BREAK moves to ACTIVE, increments
`today_break_count` and adds `event_time − break_start_time` to
`today_total_break_minutes`, recording it as the originating break's
`actual_duration_minutes`; CHECKOUT from ACTIVE or ON_BREAK moves to
OFFLINE.  Out-of-state events are no-ops on the state fields but are still
appended to the audit log. -/
def applyEvent (st : DayState) (e : AttendanceEvent) : DayState :=
  let st := { st with log := st.log ++ [e] }
  match e.kind with
  | .CHECKIN =>
      { st with
        status := .ACTIVE
        last_checkin_at := some e.time
        today_checkin_at :=
          match st.today_checkin_at with
          | some t => some t
          | none => some e.time }
  | .BREAK_START =>
      if st.status = .ACTIVE then
        { st with
          status := .ON_BREAK
          last_break_start_at := some e.time
          current_break_reason := e.reason
          expected_return_at := e.expected_return }
      else st
  | .BREAK_END =>
      if st.status = .ON_BREAK then
        let t0 := st.last_break_start_at.getD e.time
        let dur : Int := (e.time : Int) - (t0 : Int)
        { st with
          status := .ACTIVE
          today_break_count := st.today_break_count + 1
          today_total_break_minutes := st.today_total_break_minutes + dur
          closed_breaks := st.closed_breaks ++ [(t0, dur)]
          current_break_reason := none
          expected_return_at := none }
      else st
  | .CHECKOUT =>
      if st.status = .ACTIVE ∨ st.status = .ON_BREAK then
        { st with status := .OFFLINE, last_checkout_at := some e.time }
      else st

/-- Whether an event kind is in-state for the current status (the
transitions the spec lists explicitly). -/
def validTransition (s : Status) (k : EventKind) : Bool :=
  match k with
  | .CHECKIN => true
  | .BREAK_START => decide (s = .ACTIVE)
  | .BREAK_END => decide (s = .ON_BREAK)
  | .CHECKOUT => decide (s = .ACTIVE ∨ s = .ON_BREAK)

/-- Event-time ordering used for projection (insertion order is
irrelevant). -/
def timeLE (a b : AttendanceEvent) : Prop := a.time ≤ b.time

instance : DecidableRel timeLE := fun a b => Nat.decLe a.time b.time

instance : IsTotal AttendanceEvent timeLE :=
  ⟨fun a b => Nat.le_total a.time b.time⟩

instance : IsTrans AttendanceEvent timeLE :=
  ⟨fun _ _ _ h₁ h₂ => Nat.le_trans h₁ h₂⟩

/-- Strict event-time ordering. -/
def timeLT (a b : AttendanceEvent) : Prop := a.time < b.time

instance : IsAntisymm AttendanceEvent timeLT :=
  ⟨fun a _ h₁ h₂ => absurd (Nat.lt_trans h₁ h₂) (Nat.lt_irrefl a.time)⟩

/-- Retrieval is always ordered by event time. -/
def sortByEventTime (l : List AttendanceEvent) : List AttendanceEvent :=
  List.insertionSort timeLE l

/-- Modelled from the spec (§4.5): project a day by replaying the
event-time-sorted event list through the state machine. -/
def projectDay (init : DayState) (l : List AttendanceEvent) : DayState :=
  (sortByEventTime l).foldl applyEvent init

/-! ## Correction Handler -/

/-- An administrator-supplied override, from the correction endpoint:
original event id, corrected kind, corrected reason. -/
structure Correction where
  event_id : Nat
  corrected_kind : EventKind
  corrected_reason : Option String
deriving DecidableEq

/-- Modelled from the spec (§4.8 Correction Handler, not implemented under
`src/`): at projection level, the corrected event list replaces the targeted
event's kind and reason with the manual override (the superseding manual
event keeps the original's event time). -/
def applyCorrection (c : Correction) (l : List AttendanceEvent) :
    List AttendanceEvent :=
  l.map (fun e =>
    if e.id = c.event_id then
      { e with
        kind := c.corrected_kind
        reason := c.corrected_reason
        source := .manual }
    else e)

/-! ## Pipeline -/

/-- One inbound message from the ingest collaborator (§6). -/
structure InboundMessage where
  message_id : Nat
  channel_id : Nat
  author_id : Option Nat
  text : String
  timestamp : Nat
deriving DecidableEq

/-- The event written when a message is finalized. -/
def buildEvent (m : InboundMessage) (k : EventKind) (conf : ℚ)
    (src : ClassSource) (reason : Option String) : AttendanceEvent :=
  ⟨m.message_id, m.author_id, k, m.timestamp, none, reason, conf, src, none,
   m.text⟩

/-- Fatal pipeline conditions (§7: only truly unexpected conditions
propagate; classification ambiguity is not one of them). -/
inductive PipelineError
  | store_unavailable
  | config_missing
deriving DecidableEq

/-- Modelled from the spec (§2 data flow and §7, not implemented under
`src/`): process one inbound message — resolve its classification and, on
finalization, write exactly one event through the Event Store under the
message's idempotence key.  A dropped message leaves the store untouched and
is reported as success, never as an error. -/
def processMessage (tenant : Nat) (s : List StoreEntry) (m : InboundMessage)
    (ai : Classification) (threshold : ℚ) :
    Except PipelineError (List StoreEntry) :=
  match (resolveClassification (patternClassify m.text) ai threshold).outcome with
  | .finalized k src conf r =>
      .ok (finalizeEvent s ⟨tenant, m.channel_id, m.message_id⟩
            (buildEvent m k conf src r) false).1
  | .dropped => .ok s

/-! ## Pattern Analyzer and Anomaly Detector -/

/-- The per-user derived pattern record, following the
`attendance_patterns` schema (times as rational minutes since midnight;
thresholds auto-calculated). -/
structure UserPattern where
  avg_checkin_time : ℚ
  avg_checkout_time : ℚ
  avg_break_duration_minutes : ℚ
  late_checkin_threshold : ℚ
  long_break_threshold_minutes : ℚ
deriving DecidableEq

/-- Analyzer configuration: minimum sample size, the late buffer, the
long-break multiplier and its floor. -/
structure AnalyzerConfig where
  min_sample_size : Nat
  late_buffer_minutes : ℚ
  long_break_multiplier : ℚ
  long_break_floor_minutes : ℚ
deriving DecidableEq

/-- Arithmetic mean of a list of rationals (0 for an empty list). -/
def ratAvg (xs : List ℚ) : ℚ :=
  if xs.length = 0 then 0 else xs.sum / (xs.length : ℚ)

/-- Modelled from the spec (§4.6 Pattern Analyzer, not implemented under
`src/`): over the trailing window's events, compute average check-in/out
time and average break duration, deriving the anomaly thresholds
(`late_checkin_threshold = average_checkin_time + buffer`,
`long_break_threshold = average_break_duration × multiplier`, floored).
Fewer events than the minimum sample size yields `none`, the "no data"
marker (`has_data = false` in `AttendanceInsights` of
`dashboard/src/lib/api.ts`), never numeric thresholds.  Time-of-day
averaging is the arithmetic mean of the minute values. -/
def analyzePatterns (cfg : AnalyzerConfig) (events : List AttendanceEvent) :
    Option UserPattern :=
  if events.length < cfg.min_sample_size then none
  else
    let checkins :=
      (events.filter (fun e => decide (e.kind = .CHECKIN))).map
        (fun e => (e.time : ℚ))
    let checkouts :=
      (events.filter (fun e => decide (e.kind = .CHECKOUT))).map
        (fun e => (e.time : ℚ))
    let breakDurs :=
      events.filterMap (fun e =>
        match e.kind, e.actual_duration_minutes with
        | .BREAK_START, some d => some ((d : ℚ))
        | _, _ => none)
    let avgIn := ratAvg checkins
    let avgDur := ratAvg breakDurs
    some
      ⟨avgIn, ratAvg checkouts, avgDur,
       avgIn + cfg.late_buffer_minutes,
       max (avgDur * cfg.long_break_multiplier) cfg.long_break_floor_minutes⟩

/-- Alert descriptors emitted to the notification collaborator. -/
inductive AlertKind
  | long_break
  | no_checkout
  | late_checkin
deriving DecidableEq

/-- Detector configuration: the no-checkout ceiling and the late buffer. -/
structure DetectorConfig where
  no_checkout_ceiling_minutes : ℚ
  late_buffer_minutes : ℚ
deriving DecidableEq

/-- Modelled from the spec (§4.7 Anomaly Detector, not implemented under
`src/`): a stateless comparator of the current status against the latest
pattern — a break open longer than the long-break threshold, an active
session past the no-checkout ceiling, or a check-in later than the late
threshold by more than the buffer.  "No data" (`none`) is never
anomalous. -/
def detectAnomalies (st : DayState) (pat : Option UserPattern) (now : Nat)
    (cfg : DetectorConfig) : List AlertKind :=
  match pat with
  | none => []
  | some p =>
      (match st.status, st.last_break_start_at with
       | .ON_BREAK, some t0 =>
           if p.long_break_threshold_minutes < (now : ℚ) - (t0 : ℚ) then
             [.long_break]
           else []
       | _, _ => []) ++
      (match st.status, st.today_checkin_at with
       | .ACTIVE, some tin =>
           if cfg.no_checkout_ceiling_minutes < (now : ℚ) - (tin : ℚ) then
             [.no_checkout]
           else []
       | _, _ => []) ++
      (match st.today_checkin_at with
       | some tin =>
           if p.late_checkin_threshold + cfg.late_buffer_minutes < (tin : ℚ) then
             [.late_checkin]
           else []
       | none => [])

/-! ## Team status aggregation -/

/-- One member's row in the team status response, following
`UserAttendanceStatus` in `dashboard/src/lib/api.ts` (the status is one of
exactly four values). -/
structure UserAttendanceStatus where
  user_id : Nat
  discord_username : Option String
  status : Status
  since : Option Nat
  current_break_reason : Option String
  expected_return_at : Option Nat
  today_checkin_at : Option Nat
  today_break_count : Nat
  today_total_break_minutes : Int
deriving DecidableEq

/-- The summary block of `TeamStatusResponse` in
`dashboard/src/lib/api.ts`: team-wide counts by status, including
`unknown`. -/
structure TeamSummary where
  active : Nat
  on_break : Nat
  offline : Nat
  unknown : Nat
deriving DecidableEq

/-- The dashboard's per-status member lists (`TeamPage` filters
`team_status` on each status value). -/
def membersWith (l : List UserAttendanceStatus) (s : Status) :
    List UserAttendanceStatus :=
  l.filter (fun m => decide (m.status = s))

/-- Modelled from the spec (§6 outbound status query, backend not under
`src/`): the summary counts are the sizes of the per-status member lists. -/
def teamSummary (l : List UserAttendanceStatus) : TeamSummary :=
  ⟨(membersWith l .ACTIVE).length, (membersWith l .ON_BREAK).length,
   (membersWith l .OFFLINE).length, (membersWith l .UNKNOWN).length⟩

/-- The team status response: the member rows plus the summary counts. -/
structure TeamStatusResponse where
  team_status : List UserAttendanceStatus
  summary : TeamSummary
deriving DecidableEq

/-- Build the response for a list of member rows. -/
def teamStatusResponse (l : List UserAttendanceStatus) : TeamStatusResponse :=
  ⟨l, teamSummary l⟩

/-! ## Theorems -/

/-- A run of unconfigured providers is skipped when selecting a provider. -/
theorem classifyAI_skip_unconfigured (pre l : List ProviderOutcome)
    (h : ∀ q ∈ pre, q = .notConfigured) :
    classifyAI (pre ++ l) = classifyAI l := by
  induction pre with
  | nil => rfl
  | cons q rest ih =>
      have hq : q = .notConfigured := h q (List.mem_cons_self q rest)
      subst hq
      exact ih (fun q hq => h q (List.mem_cons_of_mem _ hq))

/-- C4 (counterexample): the claim "the Resolver finalizes with source=ai if
and only if confidence ≥ threshold" fails for an AI result whose event kind
is NONE: with the default threshold 0.7, the result `(kind NONE,
confidence 1)` has confidence ≥ 0.7, yet the Resolver drops the message —
a NONE kind can never be finalized into an AttendanceEvent. -/
theorem resolve_ai_gate_counterexample :
    (7 / 10 : ℚ) ≤ 1 ∧
    (resolveClassification ⟨none, 0, none⟩ ⟨none, 1, none⟩ (7 / 10)).outcome =
      .dropped :=
  ⟨by norm_num, rfl⟩

/-- C4 (amended): for every AI Classifier result carrying an actual event
kind (not NONE), the Resolver finalizes with source=ai if and only if the
result's confidence is ≥ the configured threshold; with the default
threshold 0.7, confidence exactly 0.70 finalizes and 0.699 does not. -/
theorem resolve_ai_confidence_gate (k : EventKind) (conf : ℚ)
    (r : Option String) (threshold : ℚ) :
    ((resolveClassification ⟨none, 0, none⟩ ⟨some k, conf, r⟩ threshold).outcome =
        .finalized k .ai conf r ↔ threshold ≤ conf) ∧
    (resolveClassification ⟨none, 0, none⟩ ⟨some k, 7 / 10, r⟩
        (7 / 10)).outcome = .finalized k .ai (7 / 10) r ∧
    (resolveClassification ⟨none, 0, none⟩ ⟨some k, 699 / 1000, r⟩
        (7 / 10)).outcome = .dropped := by
  refine ⟨?_, ?_, ?_⟩
  · simp only [resolveClassification, resolveAI]
    split_ifs with h <;> simp [h]
  · norm_num [resolveClassification, resolveAI]
  · norm_num [resolveClassification, resolveAI]

/-- C5: the Resolver runs the Pattern Matcher first; a rule match
(confidence 1.0) finalizes immediately with source=rule and the AI
Classifier is not invoked.  When no rule matched and the AI result also
fails the confidence gate, processing the message records no event, changes
no state, and surfaces no error to the caller. -/
theorem resolver_rule_first_and_silent_drop (ai : Classification) (θ : ℚ)
    (k : EventKind) (r : Option String) (tenant : Nat)
    (s : List StoreEntry) (m : InboundMessage) :
    (patternClassify m.text = ⟨some k, 1, r⟩ →
      resolveClassification (patternClassify m.text) ai θ =
        ⟨.finalized k .rule 1 r, false⟩) ∧
    (patternClassify m.text = ⟨none, 0, none⟩ →
      (ai.kind = none ∨ ai.confidence < θ) →
      processMessage tenant s m ai θ = .ok s) := by
  constructor
  · intro h
    rw [h]
    simp [resolveClassification]
  · intro h hai
    unfold processMessage
    rw [h]
    rcases hai with hk | hconf
    · simp [resolveClassification, resolveAI, hk]
    · cases hak : ai.kind with
      | none => simp [resolveClassification, resolveAI, hak]
      | some k₂ =>
          simp [resolveClassification, resolveAI, hak, not_le.mpr hconf]

/-- Witness for C5 at concrete inputs: the message "✅ Available" is
rule-finalized as CHECKIN without invoking the AI, and the
non-attendance message "what a day" with a below-threshold AI result is
silently dropped. -/
theorem resolver_rule_first_witness :
    resolveClassification (patternClassify "✅ Available")
        ⟨some .CHECKIN, 1 / 2, none⟩ (7 / 10) =
      ⟨.finalized .CHECKIN .rule 1 none, false⟩ ∧
    processMessage 1 [] ⟨10, 20, some 3, "what a day", 600⟩
        ⟨some .CHECKIN, 1 / 2, none⟩ (7 / 10) = .ok [] := by
  have h₁ := resolver_rule_first_and_silent_drop ⟨some .CHECKIN, 1 / 2, none⟩
    (7 / 10) .CHECKIN none 1 [] ⟨10, 20, some 3, "✅ Available", 600⟩
  have h₂ := resolver_rule_first_and_silent_drop ⟨some .CHECKIN, 1 / 2, none⟩
    (7 / 10) .CHECKIN none 1 [] ⟨10, 20, some 3, "what a day", 600⟩
  exact ⟨h₁.1 (by decide), h₂.2 (by decide) (Or.inr (by norm_num))⟩

/-- C7: the AI Classifier fails closed.  If every earlier provider is
unconfigured and the selected provider call times out, errors, or returns
unparsable output — or no provider is configured at all — the classifier
returns NONE with confidence 0 (it never raises: its result type is a plain
classification), and the Resolver then leaves the message unclassified. -/
theorem classifier_fails_closed (pre : List ProviderOutcome)
    (p : ProviderOutcome) (rest : List ProviderOutcome) (θ : ℚ)
    (hpre : ∀ q ∈ pre, q = .notConfigured)
    (hp : p = .timeout ∨ p = .failure ∨ p = .unparsable) :
    classifyAI pre = ⟨none, 0, none⟩ ∧
    classifyAI (pre ++ p :: rest) = ⟨none, 0, none⟩ ∧
    resolveClassification ⟨none, 0, none⟩ (classifyAI (pre ++ p :: rest)) θ =
      ⟨.dropped, true⟩ := by
  have hskip := classifyAI_skip_unconfigured pre (p :: rest) hpre
  have hnil : classifyAI pre = ⟨none, 0, none⟩ := by
    have := classifyAI_skip_unconfigured pre [] hpre
    simpa using this
  have hbad : classifyAI (p :: rest) = ⟨none, 0, none⟩ := by
    rcases hp with h | h | h <;> subst h <;> rfl
  refine ⟨hnil, hskip.trans hbad, ?_⟩
  rw [hskip, hbad]
  rfl

/-- Witness for C7 at a concrete input: one unconfigured provider followed
by a timeout. -/
theorem classifier_fails_closed_witness :
    classifyAI [.notConfigured] = ⟨none, 0, none⟩ ∧
    classifyAI [.notConfigured, .timeout] = ⟨none, 0, none⟩ ∧
    resolveClassification ⟨none, 0, none⟩
        (classifyAI [.notConfigured, .timeout]) (7 / 10) = ⟨.dropped, true⟩ :=
  classifier_fails_closed [.notConfigured] .timeout [] (7 / 10)
    (by intro q hq; simpa using hq) (Or.inl rfl)

/-- C8: a message of the form `BRB - <reason>` (reason nonempty, no leading
or trailing whitespace) is classified by the Pattern Matcher as BREAK_START
with confidence 1.0 and the event's reason is exactly the captured free text
after the dash; a bare "BRB" is BREAK_START with no reason. -/
theorem pattern_matcher_brb_reason (r : List Char) (hne : r ≠ [])
    (hlead : dropWS r = r) (htrail : stripEnd r = r) :
    patternClassify (String.mk (['B', 'R', 'B', ' ', '-', ' '] ++ r)) =
      ⟨some .BREAK_START, 1, some (String.mk r)⟩ ∧
    patternClassify "BRB" = ⟨some .BREAK_START, 1, none⟩ := by
  have hempty : r.isEmpty = false := by
    cases r with
    | nil => exact absurd rfl hne
    | cons a l => rfl
  have hBRB : matchBRB ('B' :: 'R' :: 'B' :: ' ' :: '-' :: ' ' :: r) =
      some (some r) := by
    have hstep : matchBRB ('B' :: 'R' :: 'B' :: ' ' :: '-' :: ' ' :: r) =
        if (dropWS r).isEmpty then
          (match (' ' :: r : List Char).reverse with
           | [] => some none
           | x :: _ => some (some [x]))
        else some (some (dropWS r)) := rfl
    rw [hstep, hlead, hempty]
    simp
  have hbs : matchBREAK_START ('B' :: 'R' :: 'B' :: ' ' :: '-' :: ' ' :: r) =
      some (some r) := by
    unfold matchBREAK_START
    rw [hBRB]
  have hin : matchCHECKIN ('B' :: 'R' :: 'B' :: ' ' :: '-' :: ' ' :: r) =
      false := rfl
  have hout : matchCHECKOUT ('B' :: 'R' :: 'B' :: ' ' :: '-' :: ' ' :: r) =
      false := rfl
  have hsb : stripBoth r = r := by
    unfold stripBoth
    rw [hlead, htrail]
  have hcr : classifyByRules ('B' :: 'R' :: 'B' :: ' ' :: '-' :: ' ' :: r) =
      some (.BREAK_START, some r) := by
    unfold classifyByRules
    rw [hin, hout, hbs]
    simp [hsb]
  constructor
  · show (match classifyByRules ('B' :: 'R' :: 'B' :: ' ' :: '-' :: ' ' :: r) with
      | some (k, rr) => (⟨some k, 1, rr.map (fun cs => String.mk cs)⟩ : Classification)
      | none => ⟨none, 0, none⟩) = ⟨some .BREAK_START, 1, some (String.mk r)⟩
    rw [hcr]
    rfl
  · decide

/-- Witness for C8: the design document's example message
"BRB - picking up my kid, back soon" captures exactly that reason, and a
bare "BRB" captures none. -/
theorem pattern_matcher_brb_witness :
    patternClassify "BRB - picking up my kid, back soon" =
      ⟨some .BREAK_START, 1, some "picking up my kid, back soon"⟩ ∧
    patternClassify "BRB" = ⟨some .BREAK_START, 1, none⟩ := by
  have h := pattern_matcher_brb_reason "picking up my kid, back soon".data
    (by decide) (by decide) (by decide)
  exact ⟨h.1, h.2⟩

/-- C2 (counterexample): "ON_BREAK is left only by a BREAK_END or CHECKOUT
event" fails — the transition table says CHECKIN from any state moves to
ACTIVE, so a CHECKIN processed while ON_BREAK also leaves ON_BREAK. -/
theorem on_break_exit_checkin_counterexample :
    ({ initialUserState with status := .ON_BREAK } : DayState).status =
      .ON_BREAK ∧
    (applyEvent { initialUserState with status := .ON_BREAK }
      ⟨5, some 1, .CHECKIN, 700, none, none, 1, .rule, none,
        "gm"⟩).status = .ACTIVE ∧
    (⟨5, some 1, .CHECKIN, 700, none, none, 1, .rule, none,
        "gm"⟩ : AttendanceEvent).kind ≠ .BREAK_END ∧
    (⟨5, some 1, .CHECKIN, 700, none, none, 1, .rule, none,
        "gm"⟩ : AttendanceEvent).kind ≠ .CHECKOUT := by
  refine ⟨rfl, rfl, ?_, ?_⟩ <;> decide

/-- C2 (amended): in the Status Projector's state machine, ON_BREAK is
entered only by a BREAK_START event processed while the user is ACTIVE;
ON_BREAK is left only by a BREAK_END, CHECKOUT, or CHECKIN event (CHECKIN
moves to ACTIVE from any state); and any out-of-state event leaves the
status field unchanged while the event is still recorded in the audit
log. -/
theorem status_projector_state_machine (st : DayState) (e : AttendanceEvent) :
    (st.status ≠ .ON_BREAK → (applyEvent st e).status = .ON_BREAK →
      e.kind = .BREAK_START ∧ st.status = .ACTIVE) ∧
    (st.status = .ON_BREAK → (applyEvent st e).status ≠ .ON_BREAK →
      e.kind = .BREAK_END ∨ e.kind = .CHECKOUT ∨ e.kind = .CHECKIN) ∧
    (validTransition st.status e.kind = false →
      (applyEvent st e).status = st.status ∧
      (applyEvent st e).log = st.log ++ [e]) := by
  cases hk : e.kind <;> cases hs : st.status <;>
    simp [applyEvent, validTransition, hk, hs]

/-- Witness for C2 at concrete inputs: BREAK_START from ACTIVE enters
ON_BREAK; CHECKOUT is a legal exit from ON_BREAK; BREAK_END while ACTIVE is
an out-of-state no-op on the status that is still logged. -/
theorem status_projector_state_machine_witness :
    ((⟨1, some 1, .BREAK_START, 782, none, none, 1, .rule, none,
        "BRB"⟩ : AttendanceEvent).kind = .BREAK_START ∧
      ({ initialUserState with status := .ACTIVE } : DayState).status =
        .ACTIVE) ∧
    ((⟨2, some 1, .CHECKOUT, 1140, none, none, 1, .rule, none,
        "out"⟩ : AttendanceEvent).kind = .BREAK_END ∨
      (⟨2, some 1, .CHECKOUT, 1140, none, none, 1, .rule, none,
        "out"⟩ : AttendanceEvent).kind = .CHECKOUT ∨
      (⟨2, some 1, .CHECKOUT, 1140, none, none, 1, .rule, none,
        "out"⟩ : AttendanceEvent).kind = .CHECKIN) ∧
    ((applyEvent { initialUserState with status := .ACTIVE }
        ⟨3, some 1, .BREAK_END, 800, none, none, 1, .rule, none,
          "back"⟩).status =
      ({ initialUserState with status := .ACTIVE } : DayState).status ∧
     (applyEvent { initialUserState with status := .ACTIVE }
        ⟨3, some 1, .BREAK_END, 800, none, none, 1, .rule, none,
          "back"⟩).log =
      ({ initialUserState with status := .ACTIVE } : DayState).log ++
        [⟨3, some 1, .BREAK_END, 800, none, none, 1, .rule, none, "back"⟩]) :=
  ⟨(status_projector_state_machine { initialUserState with status := .ACTIVE }
      ⟨1, some 1, .BREAK_START, 782, none, none, 1, .rule, none, "BRB"⟩).1
      (by decide) (by decide),
   (status_projector_state_machine { initialUserState with status := .ON_BREAK }
      ⟨2, some 1, .CHECKOUT, 1140, none, none, 1, .rule, none, "out"⟩).2.1
      (by decide) (by decide),
   (status_projector_state_machine { initialUserState with status := .ACTIVE }
      ⟨3, some 1, .BREAK_END, 800, none, none, 1, .rule, none, "back"⟩).2.2
      (by decide)⟩

/-- C6: a BREAK_END processed while ON_BREAK with break start time `t0`
moves the user to ACTIVE, increments `today_break_count` by exactly one,
adds `event_time − t0` minutes to `today_total_break_minutes`, and records
that difference as the originating break's `actual_duration_minutes`. -/
theorem break_end_accounting (st : DayState) (e : AttendanceEvent) (t0 : Nat)
    (hst : st.status = .ON_BREAK) (hbs : st.last_break_start_at = some t0)
    (hk : e.kind = .BREAK_END) :
    (applyEvent st e).status = .ACTIVE ∧
    (applyEvent st e).today_break_count = st.today_break_count + 1 ∧
    (applyEvent st e).today_total_break_minutes =
      st.today_total_break_minutes + ((e.time : Int) - (t0 : Int)) ∧
    (applyEvent st e).closed_breaks =
      st.closed_breaks ++ [(t0, (e.time : Int) - (t0 : Int))] := by
  simp [applyEvent, hk, hst, hbs]

/-- Witness for C6: a break started at 13:02 (782 min) and ended at 13:59
(839 min) yields `actual_duration_minutes = 57` and one more break in the
rollup. -/
theorem break_end_accounting_witness :
    (applyEvent
        { initialUserState with
            status := .ON_BREAK, last_break_start_at := some 782 }
        ⟨4, some 1, .BREAK_END, 839, none, none, 1, .rule, none,
          "back"⟩).status = .ACTIVE ∧
    (applyEvent
        { initialUserState with
            status := .ON_BREAK, last_break_start_at := some 782 }
        ⟨4, some 1, .BREAK_END, 839, none, none, 1, .rule, none,
          "back"⟩).today_break_count = 0 + 1 ∧
    (applyEvent
        { initialUserState with
            status := .ON_BREAK, last_break_start_at := some 782 }
        ⟨4, some 1, .BREAK_END, 839, none, none, 1, .rule, none,
          "back"⟩).today_total_break_minutes = 0 + ((839 : Int) - 782) ∧
    (applyEvent
        { initialUserState with
            status := .ON_BREAK, last_break_start_at := some 782 }
        ⟨4, some 1, .BREAK_END, 839, none, none, 1, .rule, none,
          "back"⟩).closed_breaks = [] ++ [(782, 57)] := by
  have h := break_end_accounting
    { initialUserState with status := .ON_BREAK, last_break_start_at := some 782 }
    ⟨4, some 1, .BREAK_END, 839, none, none, 1, .rule, none, "back"⟩ 782
    rfl rfl rfl
  refine ⟨h.1, h.2.1, h.2.2.1, ?_⟩
  rw [h.2.2.2]
  norm_num [initialUserState]

/-- Two pairwise facts about a list combine pointwise. -/
theorem pairwiseAnd {α : Type} {R S : α → α → Prop} :
    ∀ {l : List α}, l.Pairwise R → l.Pairwise S →
      l.Pairwise (fun a b => R a b ∧ S a b) := by
  intro l h1 h2
  induction h1 with
  | nil => exact .nil
  | cons hr _ ih =>
      cases h2 with
      | cons hs ht => exact .cons (fun b hb => ⟨hr b hb, hs b hb⟩) (ih ht)

/-- Sorting a list whose event times are pairwise distinct yields a strictly
increasing list. -/
theorem sortByEventTime_sorted_lt (l : List AttendanceEvent)
    (hnd : (l.map AttendanceEvent.time).Nodup) :
    List.Sorted timeLT (sortByEventTime l) := by
  have hs : List.Sorted timeLE (sortByEventTime l) :=
    List.sorted_insertionSort timeLE l
  have hp : List.Perm (sortByEventTime l) l := List.perm_insertionSort timeLE l
  have hnd2 : ((sortByEventTime l).map AttendanceEvent.time).Nodup :=
    ((hp.map AttendanceEvent.time).nodup_iff).mpr hnd
  have hne : (sortByEventTime l).Pairwise (fun a b => a.time ≠ b.time) :=
    List.pairwise_map.mp hnd2
  exact (pairwiseAnd hs hne).imp (fun h => Nat.lt_of_le_of_ne h.1 h.2)

/-- With pairwise-distinct event times, sorting is insensitive to the
arrival order. -/
theorem sortByEventTime_eq_of_perm (l l' : List AttendanceEvent)
    (hperm : List.Perm l l') (hnd : (l.map AttendanceEvent.time).Nodup) :
    sortByEventTime l' = sortByEventTime l := by
  have hnd' : (l'.map AttendanceEvent.time).Nodup :=
    ((hperm.map AttendanceEvent.time).nodup_iff).mp hnd
  exact @List.eq_of_perm_of_sorted AttendanceEvent timeLT inferInstance
    (sortByEventTime l') (sortByEventTime l)
    (((List.perm_insertionSort timeLE l').trans hperm.symm).trans
      (List.perm_insertionSort timeLE l).symm)
    (sortByEventTime_sorted_lt l' hnd') (sortByEventTime_sorted_lt l hnd)

/-- Projection depends only on the multiset of events (ordered by event
time), not on arrival order. -/
theorem projectDay_perm (l l' : List AttendanceEvent) (init : DayState)
    (hperm : List.Perm l l') (hnd : (l.map AttendanceEvent.time).Nodup) :
    projectDay init l' = projectDay init l := by
  unfold projectDay
  rw [sortByEventTime_eq_of_perm l l' hperm hnd]

/-- C3: the projected status (all rollup fields included) is a function of
the set of the day's events ordered by event time only: projecting events
that arrived out of order equals a full replay of the event-time-sorted
list, and projecting after a correction changes an event's kind equals a
full replay of the corrected sorted list from scratch.  Event times are
assumed pairwise distinct so that the event-time order is well defined. -/
theorem projector_event_time_determinism (l l' : List AttendanceEvent)
    (c : Correction) (init : DayState) (hperm : List.Perm l l')
    (hnd : (l.map AttendanceEvent.time).Nodup) :
    projectDay init l' = projectDay init l ∧
    projectDay init (applyCorrection c l') =
      projectDay init (applyCorrection c l) := by
  have htimes : ∀ m : List AttendanceEvent,
      (applyCorrection c m).map AttendanceEvent.time =
        m.map AttendanceEvent.time := by
    intro m
    unfold applyCorrection
    rw [List.map_map]
    apply List.map_congr_left
    intro a _
    by_cases h : a.id = c.event_id <;> simp [Function.comp, h]
  refine ⟨projectDay_perm l l' init hperm hnd, ?_⟩
  apply projectDay_perm
  · exact hperm.map _
  · rw [htimes]
    exact hnd

/-- Witness for C3: two events arriving in reversed order project to the
same state, before and after a correction. -/
theorem projector_event_time_determinism_witness :
    projectDay replayStart
        [⟨2, some 1, .BREAK_START, 20, none, none, 1, .rule, none, "brb"⟩,
         ⟨1, some 1, .CHECKIN, 10, none, none, 1, .rule, none, "gm"⟩] =
      projectDay replayStart
        [⟨1, some 1, .CHECKIN, 10, none, none, 1, .rule, none, "gm"⟩,
         ⟨2, some 1, .BREAK_START, 20, none, none, 1, .rule, none, "brb"⟩] ∧
    projectDay replayStart
        (applyCorrection ⟨2, .CHECKOUT, none⟩
          [⟨2, some 1, .BREAK_START, 20, none, none, 1, .rule, none, "brb"⟩,
           ⟨1, some 1, .CHECKIN, 10, none, none, 1, .rule, none, "gm"⟩]) =
      projectDay replayStart
        (applyCorrection ⟨2, .CHECKOUT, none⟩
          [⟨1, some 1, .CHECKIN, 10, none, none, 1, .rule, none, "gm"⟩,
           ⟨2, some 1, .BREAK_START, 20, none, none, 1, .rule, none, "brb"⟩]) :=
  projector_event_time_determinism
    [⟨1, some 1, .CHECKIN, 10, none, none, 1, .rule, none, "gm"⟩,
     ⟨2, some 1, .BREAK_START, 20, none, none, 1, .rule, none, "brb"⟩]
    [⟨2, some 1, .BREAK_START, 20, none, none, 1, .rule, none, "brb"⟩,
     ⟨1, some 1, .CHECKIN, 10, none, none, 1, .rule, none, "gm"⟩]
    ⟨2, .CHECKOUT, none⟩ replayStart
    (List.Perm.swap
      (⟨2, some 1, .BREAK_START, 20, none, none, 1, .rule, none,
        "brb"⟩ : AttendanceEvent)
      (⟨1, some 1, .CHECKIN, 10, none, none, 1, .rule, none,
        "gm"⟩ : AttendanceEvent) [])
    (by decide)

/-- A lookup that misses a prefix of the store continues in the suffix. -/
theorem lookupActive_append_right (s t : List StoreEntry) (k : MsgKey)
    (h : lookupActive s k = none) :
    lookupActive (s ++ t) k = lookupActive t k := by
  induction s with
  | nil => rfl
  | cons e rest ih =>
      by_cases hc : e.key = k ∧ e.superseded = false
      · simp [lookupActive, hc] at h
      · simp only [lookupActive, hc, if_false] at h
        simp only [List.cons_append, lookupActive, hc, if_false]
        exact ih h

/-- Appending an entry under a different key does not change a lookup. -/
theorem lookupActive_append_single_ne (s : List StoreEntry) (x : StoreEntry)
    (k : MsgKey) (hx : x.key ≠ k) :
    lookupActive (s ++ [x]) k = lookupActive s k := by
  induction s with
  | nil => simp [lookupActive, hx]
  | cons e rest ih =>
      by_cases hc : e.key = k ∧ e.superseded = false
      · simp [lookupActive, hc]
      · simp only [List.cons_append, lookupActive, hc, if_false]
        exact ih

/-- The active-entry count distributes over store concatenation. -/
theorem countActive_append (s t : List StoreEntry) (k : MsgKey) :
    countActive (s ++ t) k = countActive s k + countActive t k := by
  simp [countActive, List.filter_append]

/-- A store with no active entry under a key counts zero there. -/
theorem countActive_zero_of_lookup_none (s : List StoreEntry) (k : MsgKey)
    (h : lookupActive s k = none) : countActive s k = 0 := by
  induction s with
  | nil => rfl
  | cons e rest ih =>
      by_cases hc : e.key = k ∧ e.superseded = false
      · simp [lookupActive, hc] at h
      · simp only [lookupActive, hc, if_false] at h
        simp only [countActive, List.filter_cons, decide_eq_true_eq, hc,
          if_false]
        exact ih h

/-- A single entry under a different key counts zero. -/
theorem countActive_single_ne (x : StoreEntry) (k : MsgKey)
    (hx : x.key ≠ k) : countActive [x] k = 0 := by
  simp [countActive, hx]

/-- Superseding one key does not change lookups under another. -/
theorem lookupActive_markSuperseded_ne (s : List StoreEntry) (k k' : MsgKey)
    (hne : k' ≠ k) :
    lookupActive (markSuperseded s k') k = lookupActive s k := by
  induction s with
  | nil => rfl
  | cons e rest ih =>
      by_cases he : e.key = k'
      · have h1 : ¬(e.key = k ∧ e.superseded = false) := by
          intro hc
          exact hne (he ▸ hc.1)
        have h2 : e.key ≠ k := by
          rw [he]
          exact hne
        simp only [markSuperseded, List.map_cons, if_pos he, lookupActive]
        rw [if_neg (by simp [h2]), if_neg h1]
        exact ih
      · simp only [markSuperseded, List.map_cons, if_neg he, lookupActive]
        by_cases hc : e.key = k ∧ e.superseded = false
        · rw [if_pos hc, if_pos hc]
        · rw [if_neg hc, if_neg hc]
          exact ih

/-- Superseding one key does not change the active count under another. -/
theorem countActive_markSuperseded_ne (s : List StoreEntry) (k k' : MsgKey)
    (hne : k' ≠ k) :
    countActive (markSuperseded s k') k = countActive s k := by
  induction s with
  | nil => rfl
  | cons e rest ih =>
      by_cases he : e.key = k'
      · have h1 : ¬(e.key = k ∧ e.superseded = false) := by
          intro hc
          exact hne (he ▸ hc.1)
        simp only [markSuperseded, List.map_cons, if_pos he, countActive,
          List.filter_cons, decide_eq_true_eq]
        rw [if_neg (by simp [fun h => hne (he ▸ h)] : ¬_), if_neg h1]
        exact ih
      · simp only [markSuperseded, List.map_cons, if_neg he, countActive,
          List.filter_cons, decide_eq_true_eq]
        by_cases hc : e.key = k ∧ e.superseded = false
        · rw [if_pos hc, if_pos hc]
          simpa [countActive] using ih
        · rw [if_neg hc, if_neg hc]
          exact ih

/-- Finalizing a message under one key — from the Correction Handler or
not — changes neither the lookup nor the active count under any other
key. -/
theorem finalizeEvent_preserves (s : List StoreEntry) (k' k : MsgKey)
    (ev : AttendanceEvent) (b : Bool) (hne : k' ≠ k) :
    lookupActive (finalizeEvent s k' ev b).1 k = lookupActive s k ∧
    countActive (finalizeEvent s k' ev b).1 k = countActive s k := by
  unfold finalizeEvent
  cases hl : lookupActive s k' with
  | none =>
      constructor
      · exact lookupActive_append_single_ne s ⟨k', ev, false⟩ k hne
      · rw [countActive_append, countActive_single_ne ⟨k', ev, false⟩ k hne,
          Nat.add_zero]
  | some ex =>
      cases b with
      | false => exact ⟨rfl, rfl⟩
      | true =>
          constructor
          · show lookupActive (markSuperseded s k' ++ [⟨k', ev, false⟩]) k = _
            rw [lookupActive_append_single_ne _ ⟨k', ev, false⟩ k hne,
              lookupActive_markSuperseded_ne s k k' hne]
          · show countActive (markSuperseded s k' ++ [⟨k', ev, false⟩]) k = _
            rw [countActive_append, countActive_single_ne ⟨k', ev, false⟩ k hne,
              countActive_markSuperseded_ne s k k' hne, Nat.add_zero]

/-- Finalizing any batch of messages under other keys preserves the lookup
and active count under a key. -/
theorem finalizeAll_preserves (msgs : List (MsgKey × AttendanceEvent × Bool))
    (s : List StoreEntry) (k : MsgKey) (h : ∀ o ∈ msgs, o.1 ≠ k) :
    lookupActive (finalizeAll s msgs) k = lookupActive s k ∧
    countActive (finalizeAll s msgs) k = countActive s k := by
  induction msgs generalizing s with
  | nil => exact ⟨rfl, rfl⟩
  | cons o rest ih =>
      have ho : o.1 ≠ k := h o (List.mem_cons_self o rest)
      have hstep := finalizeEvent_preserves s o.1 k o.2.1 o.2.2 ho
      have hrec := ih (finalizeEvent s o.1 o.2.1 o.2.2).1
        (fun o2 ho2 => h o2 (List.mem_cons_of_mem _ ho2))
      exact ⟨hrec.1.trans hstep.1, hrec.2.trans hstep.2⟩

/-- C1: with no prior event under the key, finalizing a message, then any
batch of messages under other keys (in any order), then the same key again
(not from the Correction Handler) yields exactly one stored AttendanceEvent
under that key; the second finalize call is a no-op returning the
already-stored event unchanged, and the projected status is the same as if
the second call had never happened. -/
theorem event_store_idempotence (s : List StoreEntry) (k : MsgKey)
    (e₁ e₂ : AttendanceEvent)
    (others : List (MsgKey × AttendanceEvent × Bool))
    (h0 : lookupActive s k = none) (hothers : ∀ o ∈ others, o.1 ≠ k) :
    (finalizeEvent s k e₁ false).2 = e₁ ∧
    (finalizeEvent (finalizeAll (finalizeEvent s k e₁ false).1 others)
        k e₂ false).1 =
      finalizeAll (finalizeEvent s k e₁ false).1 others ∧
    (finalizeEvent (finalizeAll (finalizeEvent s k e₁ false).1 others)
        k e₂ false).2 = e₁ ∧
    countActive (finalizeAll (finalizeEvent s k e₁ false).1 others) k = 1 ∧
    projectDay initialUserState
        (activeEvents
          (finalizeEvent (finalizeAll (finalizeEvent s k e₁ false).1 others)
            k e₂ false).1) =
      projectDay initialUserState
        (activeEvents (finalizeAll (finalizeEvent s k e₁ false).1 others)) := by
  have hs₁ : finalizeEvent s k e₁ false = (s ++ [⟨k, e₁, false⟩], e₁) := by
    unfold finalizeEvent
    rw [h0]
  have hl₁ : lookupActive (s ++ [⟨k, e₁, false⟩]) k = some e₁ := by
    rw [lookupActive_append_right s _ k h0]
    simp [lookupActive]
  have hc₁ : countActive (s ++ [⟨k, e₁, false⟩]) k = 1 := by
    rw [countActive_append, countActive_zero_of_lookup_none s k h0]
    simp [countActive]
  have hpres := finalizeAll_preserves others (s ++ [⟨k, e₁, false⟩]) k hothers
  rw [hs₁]
  have hl₂ : lookupActive (finalizeAll (s ++ [⟨k, e₁, false⟩]) others) k =
      some e₁ := hpres.1.trans hl₁
  have hfin : finalizeEvent (finalizeAll (s ++ [⟨k, e₁, false⟩]) others)
      k e₂ false = (finalizeAll (s ++ [⟨k, e₁, false⟩]) others, e₁) := by
    unfold finalizeEvent
    rw [hl₂]
    rfl
  rw [hfin]
  exact ⟨rfl, rfl, rfl, hpres.2.trans hc₁, rfl⟩

/-- Witness for C1: an empty store, one unrelated message in between, and a
duplicate finalize with a different candidate event. -/
theorem event_store_idempotence_witness :
    (finalizeEvent [] ⟨1, 7, 100⟩
        ⟨100, some 1, .CHECKIN, 594, none, none, 1, .rule, none, "gm"⟩
        false).2 =
      ⟨100, some 1, .CHECKIN, 594, none, none, 1, .rule, none, "gm"⟩ ∧
    (finalizeEvent
        (finalizeAll
          (finalizeEvent [] ⟨1, 7, 100⟩
            ⟨100, some 1, .CHECKIN, 594, none, none, 1, .rule, none, "gm"⟩
            false).1
          [(⟨1, 7, 101⟩,
            ⟨101, some 2, .BREAK_START, 782, none, none, 1, .rule, none,
              "brb"⟩, false)])
        ⟨1, 7, 100⟩
        ⟨100, some 1, .CHECKOUT, 594, none, none, 1, .ai, none, "gm"⟩
        false).1 =
      finalizeAll
        (finalizeEvent [] ⟨1, 7, 100⟩
          ⟨100, some 1, .CHECKIN, 594, none, none, 1, .rule, none, "gm"⟩
          false).1
        [(⟨1, 7, 101⟩,
          ⟨101, some 2, .BREAK_START, 782, none, none, 1, .rule, none,
            "brb"⟩, false)] ∧
    (finalizeEvent
        (finalizeAll
          (finalizeEvent [] ⟨1, 7, 100⟩
            ⟨100, some 1, .CHECKIN, 594, none, none, 1, .rule, none, "gm"⟩
            false).1
          [(⟨1, 7, 101⟩,
            ⟨101, some 2, .BREAK_START, 782, none, none, 1, .rule, none,
              "brb"⟩, false)])
        ⟨1, 7, 100⟩
        ⟨100, some 1, .CHECKOUT, 594, none, none, 1, .ai, none, "gm"⟩
        false).2 =
      ⟨100, some 1, .CHECKIN, 594, none, none, 1, .rule, none, "gm"⟩ ∧
    countActive
        (finalizeAll
          (finalizeEvent [] ⟨1, 7, 100⟩
            ⟨100, some 1, .CHECKIN, 594, none, none, 1, .rule, none, "gm"⟩
            false).1
          [(⟨1, 7, 101⟩,
            ⟨101, some 2, .BREAK_START, 782, none, none, 1, .rule, none,
              "brb"⟩, false)])
        ⟨1, 7, 100⟩ = 1 := by
  have h := event_store_idempotence [] ⟨1, 7, 100⟩
    ⟨100, some 1, .CHECKIN, 594, none, none, 1, .rule, none, "gm"⟩
    ⟨100, some 1, .CHECKOUT, 594, none, none, 1, .ai, none, "gm"⟩
    [(⟨1, 7, 101⟩,
      ⟨101, some 2, .BREAK_START, 782, none, none, 1, .rule, none,
        "brb"⟩, false)]
    rfl (by decide)
  exact ⟨h.1, h.2.1, h.2.2.1, h.2.2.2.1⟩

/-- C9: with fewer events in the trailing window than the minimum sample
size the Pattern Analyzer produces the "no data" marker instead of numeric
thresholds, and for that marker the Anomaly Detector emits no alert,
whatever the user's current status, times, or durations. -/
theorem no_data_never_anomalous (cfg : AnalyzerConfig)
    (events : List AttendanceEvent) (st : DayState) (now : Nat)
    (dcfg : DetectorConfig) (h : events.length < cfg.min_sample_size) :
    analyzePatterns cfg events = none ∧
    detectAnomalies st (analyzePatterns cfg events) now dcfg = [] := by
  have h1 : analyzePatterns cfg events = none := by
    unfold analyzePatterns
    rw [if_pos h]
  refine ⟨h1, ?_⟩
  rw [h1]
  rfl

/-- Witness for C9: two events against a minimum sample size of three, with
a user deep into an open break. -/
theorem no_data_never_anomalous_witness :
    analyzePatterns ⟨3, 30, 2, 120⟩
        [⟨1, some 1, .CHECKIN, 594, none, none, 1, .rule, none, "gm"⟩,
         ⟨2, some 1, .BREAK_START, 782, none, none, 1, .rule, none, "brb"⟩] =
      none ∧
    detectAnomalies
        { initialUserState with
            status := .ON_BREAK, last_break_start_at := some 782,
            today_checkin_at := some 594 }
        (analyzePatterns ⟨3, 30, 2, 120⟩
          [⟨1, some 1, .CHECKIN, 594, none, none, 1, .rule, none, "gm"⟩,
           ⟨2, some 1, .BREAK_START, 782, none, none, 1, .rule, none,
             "brb"⟩])
        1423 ⟨600, 30⟩ = [] :=
  no_data_never_anomalous ⟨3, 30, 2, 120⟩
    [⟨1, some 1, .CHECKIN, 594, none, none, 1, .rule, none, "gm"⟩,
     ⟨2, some 1, .BREAK_START, 782, none, none, 1, .rule, none, "brb"⟩]
    { initialUserState with
        status := .ON_BREAK, last_break_start_at := some 782,
        today_checkin_at := some 594 }
    1423 ⟨600, 30⟩ (by decide)

/-- C10: every member's status is one of exactly four values, so the
per-status member lists the dashboard derives by filtering `team_status` are
pairwise disjoint and jointly exhaustive, and the four summary counts
(unknown included) sum to the length of `team_status`. -/
theorem team_status_partition (l : List UserAttendanceStatus) :
    (∀ s₁ s₂ : Status, s₁ ≠ s₂ →
      ∀ m, m ∈ membersWith l s₁ → m ∉ membersWith l s₂) ∧
    (∀ m ∈ l, m ∈ membersWith l m.status) ∧
    (teamSummary l).active + (teamSummary l).on_break +
        (teamSummary l).offline + (teamSummary l).unknown = l.length := by
  refine ⟨?_, ?_, ?_⟩
  · intro s₁ s₂ hne m h₁ h₂
    have e₁ : m.status = s₁ := by
      have := List.mem_filter.mp h₁
      simpa using this.2
    have e₂ : m.status = s₂ := by
      have := List.mem_filter.mp h₂
      simpa using this.2
    exact hne (e₁ ▸ e₂)
  · intro m hm
    exact List.mem_filter.mpr ⟨hm, by simp⟩
  · induction l with
    | nil => rfl
    | cons a t ih =>
        simp only [teamSummary, membersWith, List.filter_cons,
          List.length_cons] at ih ⊢
        cases ha : a.status <;> simp [ha] <;> omega

/-- Witness for C10 on a concrete two-member team: the active and offline
lists are disjoint, each member lands in the list of its own status, and the
four counts sum to two. -/
theorem team_status_partition_witness :
    ((⟨1, some "kat", .ACTIVE, some 552, none, none, some 552, 0, 0⟩ :
        UserAttendanceStatus) ∉
      membersWith
        [⟨1, some "kat", .ACTIVE, some 552, none, none, some 552, 0, 0⟩,
         ⟨2, some "bob", .UNKNOWN, none, none, none, none, 0, 0⟩]
        .OFFLINE) ∧
    ((⟨2, some "bob", .UNKNOWN, none, none, none, none, 0, 0⟩ :
        UserAttendanceStatus) ∈
      membersWith
        [⟨1, some "kat", .ACTIVE, some 552, none, none, some 552, 0, 0⟩,
         ⟨2, some "bob", .UNKNOWN, none, none, none, none, 0, 0⟩]
        .UNKNOWN) ∧
    (teamSummary
          [⟨1, some "kat", .ACTIVE, some 552, none, none, some 552, 0, 0⟩,
           ⟨2, some "bob", .UNKNOWN, none, none, none, none, 0, 0⟩]).active +
        (teamSummary
          [⟨1, some "kat", .ACTIVE, some 552, none, none, some 552, 0, 0⟩,
           ⟨2, some "bob", .UNKNOWN, none, none, none, none, 0, 0⟩]).on_break +
        (teamSummary
          [⟨1, some "kat", .ACTIVE, some 552, none, none, some 552, 0, 0⟩,
           ⟨2, some "bob", .UNKNOWN, none, none, none, none, 0, 0⟩]).offline +
        (teamSummary
          [⟨1, some "kat", .ACTIVE, some 552, none, none, some 552, 0, 0⟩,
           ⟨2, some "bob", .UNKNOWN, none, none, none, none, 0, 0⟩]).unknown =
      ([⟨1, some "kat", .ACTIVE, some 552, none, none, some 552, 0, 0⟩,
        ⟨2, some "bob", .UNKNOWN, none, none, none, none, 0, 0⟩] :
          List UserAttendanceStatus).length := by
  have h := team_status_partition
    [⟨1, some "kat", .ACTIVE, some 552, none, none, some 552, 0, 0⟩,
     ⟨2, some "bob", .UNKNOWN, none, none, none, none, 0, 0⟩]
  refine ⟨?_, ?_, h.2.2⟩
  · exact h.1 .ACTIVE .OFFLINE (by decide)
      ⟨1, some "kat", .ACTIVE, some 552, none, none, some 552, 0, 0⟩
      (by decide)
  · exact h.2.1 ⟨2, some "bob", .UNKNOWN, none, none, none, none, 0, 0⟩
      (by decide)

end EldenOps
